import Mathlib

/-!
Verification of the `AdminUsersPage` view component
(src/src/pages/AdminUsersPage.tsx).

The page keeps a local list of user records, derives a filtered view from
search text and role/status filters, and forwards edit/delete mutations to
an external service before patching local state.  We embed the record type,
the filter predicate, and the state transitions of the fetch, save and
delete handlers as pure Lean functions, and prove the stated properties.
-/

/-- A user record as selected from the `users` table: id, username, email,
role and creation timestamp.  Roles are strings in the code (compared with
string literals), so we keep them as strings. -/
structure UserRecord where
  id : String
  username : String
  email : String
  role : String
  created_at : String
deriving DecidableEq, Repr

/-- Leading-match test on character lists: `charsLeadMatch pat s` is true
when `pat` occurs at the very start of `s`. -/
def charsLeadMatch : List Char → List Char → Bool
  | [], _ => true
  | _ :: _, [] => false
  | a :: as, b :: bs => a == b && charsLeadMatch as bs

/-- Substring occurrence on character lists: `charsContain pat s` is true
when `pat` occurs contiguously somewhere in `s`.  Models JavaScript
`String.prototype.includes`. -/
def charsContain (pat : List Char) : List Char → Bool
  | [] => pat.isEmpty
  | c :: rest => charsLeadMatch pat (c :: rest) || charsContain pat rest

/-- `strContains s pat` : does `s` contain `pat` as a substring
(JavaScript `s.includes(pat)`). -/
def strContains (s pat : String) : Bool :=
  charsContain pat.data s.data

/-- Character-wise lower-casing of a string, modelling JavaScript
`toLowerCase` on the code points of the string. -/
def strToLower (s : String) : String :=
  String.mk (s.data.map Char.toLower)

/-- The search clause of the filter effect (lines 56-58):
username or email, lower-cased, contains the lower-cased search term. -/
def matchesSearch (u : UserRecord) (searchTerm : String) : Bool :=
  strContains (strToLower u.username) (strToLower searchTerm) ||
  strContains (strToLower u.email) (strToLower searchTerm)

/-- The role clause of the filter effect (line 59):
empty filter matches everything, otherwise exact equality with the role. -/
def matchesRole (u : UserRecord) (filterRole : String) : Bool :=
  filterRole == "" || u.role == filterRole

/-- The status clause of the filter effect (line 60, the placeholder):
it never inspects the record, only the filter value itself. -/
def matchesStatus (filterStatus : String) : Bool :=
  filterStatus == "" || filterStatus == "active"

/-- The whole per-record predicate of the filter effect (lines 55-62). -/
def userMatches (u : UserRecord) (searchTerm filterRole filterStatus : String) : Bool :=
  matchesSearch u searchTerm && matchesRole u filterRole && matchesStatus filterStatus

/-- The filter effect (lines 54-66): the derived `filteredUsers` list as a
function of the source list and the three filter states. -/
def filterUsers (users : List UserRecord) (searchTerm filterRole filterStatus : String) :
    List UserRecord :=
  users.filter (fun u => userMatches u searchTerm filterRole filterStatus)

/-- The draft edited in the modal: username, email and role (lines 102-106). -/
structure EditDraft where
  username : String
  email : String
  role : String
deriving DecidableEq, Repr

/-- The shallow merge `\x7b ...user, ...editForm \x7d` of line 148: the three
draft fields overwrite, `id` and `created_at` are kept. -/
def applyDraft (u : UserRecord) (form : EditDraft) : UserRecord :=
  { u with username := form.username, email := form.email, role := form.role }

/-- The local state touched by `handleSaveChanges`: the user list, the error
banner and whether the modal is open. -/
structure SaveResult where
  users : List UserRecord
  error : Option String
  modalOpen : Bool
deriving DecidableEq, Repr

/-- `handleSaveChanges` (lines 118-156) as a state transition.  The two
external calls are represented by their results; the second result is only
consulted when the first succeeded, matching the `await`/`throw` sequencing.
On any thrown error the catch block sets the error banner and nothing else
changes; on success the list is patched by id and the modal closes. -/
def handleSaveChanges (selectedUser : Option UserRecord) (form : EditDraft)
    (users : List UserRecord) (prevError : Option String) (modalOpen : Bool)
    (authRes dbRes : Except String Unit) : SaveResult :=
  match selectedUser with
  | none => ⟨users, prevError, modalOpen⟩
  | some sel =>
    match authRes with
    | Except.error e =>
        ⟨users, some ("Ошибка при обновлении пользователя: " ++ e), modalOpen⟩
    | Except.ok _ =>
      match dbRes with
      | Except.error e =>
          ⟨users, some ("Ошибка при обновлении пользователя: " ++ e), modalOpen⟩
      | Except.ok _ =>
          ⟨users.map (fun u => if u.id == sel.id then applyDraft u form else u),
            prevError, false⟩

/-- `deleteUser` (lines 158-179) as a state transition on (users, error).
`confirmed` is the result of the blocking confirmation dialog; the two
external deletes are represented by their results, the second consulted only
when the first succeeded. -/
def deleteUser (confirmed : Bool) (target : UserRecord) (users : List UserRecord)
    (prevError : Option String) (authRes dbRes : Except String Unit) :
    List UserRecord × Option String :=
  if !confirmed then (users, prevError)
  else
    match authRes with
    | Except.error e => (users, some ("Ошибка при удалении пользователя: " ++ e))
    | Except.ok _ =>
      match dbRes with
      | Except.error e => (users, some ("Ошибка при удалении пользователя: " ++ e))
      | Except.ok _ => (users.filter (fun u => u.id != target.id), prevError)

/-- The page state touched by the mount-time fetch effect. -/
structure PageState where
  users : List UserRecord
  filteredUsers : List UserRecord
  isLoading : Bool
  error : Option String
deriving DecidableEq, Repr

/-- The initial state of the page (lines 13-20): empty lists, loading, no
error. -/
def initialPageState : PageState :=
  ⟨[], [], true, none⟩

/-- The `fetchUsers` effect (lines 27-52) as a state transition on the page
state, parametrised by the result of the backend read.  On success both
lists are set to the data; on failure the error banner is set and the lists
are untouched; either way loading ends. -/
def fetchUsersStep (s : PageState) (res : Except String (List UserRecord)) : PageState :=
  match res with
  | Except.ok data =>
      { s with users := data, filteredUsers := data, isLoading := false, error := none }
  | Except.error _ =>
      { s with
        isLoading := false
        error := some "Не удалось загрузить пользователей. Проверьте подключение к интернету." }

/-- What the component returns: either the redirect of the access check
(lines 23-25) or the page content rendered from the state. -/
inductive RenderResult where
  | redirect (dest : String)
  | content (s : PageState)
deriving DecidableEq, Repr

/-- The access check at the top of the component (lines 23-25):
no session user, or a role other than admin, short-circuits to a redirect
before any content is built. -/
def renderAdminUsersPage (sessionUser : Option UserRecord) (s : PageState) : RenderResult :=
  match sessionUser with
  | none => RenderResult.redirect "/"
  | some u =>
      if u.role != "admin" then RenderResult.redirect "/"
      else RenderResult.content s

/-! ### Helper lemmas -/

/-- The empty pattern occurs in every character list. -/
theorem charsContain_nil (s : List Char) : charsContain [] s = true := by
  induction s with
  | nil => rfl
  | cons c rest ih => simp [charsContain, charsLeadMatch]

/-- Searching for the lower-cased empty string always succeeds. -/
theorem strContains_lower_empty (s : String) : strContains s (strToLower "") = true := by
  have h : (strToLower "").data = [] := rfl
  unfold strContains
  rw [h]
  exact charsContain_nil _

/-- When an id does not occur among the mapped ids of a list, the filter
keeping the other ids is the identity on that list. -/
theorem filter_ne_id_of_not_mem (x : String) (l : List UserRecord)
    (h : x ∉ l.map UserRecord.id) :
    l.filter (fun u => u.id != x) = l := by
  apply List.filter_eq_self.mpr
  intro u hu
  simp only [bne_iff_ne, ne_eq]
  intro hid
  exact h (hid ▸ List.mem_map_of_mem UserRecord.id hu)

/-- Under unique ids, filtering out one present id drops exactly one
element. -/
theorem length_filter_ne_id (target : UserRecord) :
    ∀ users : List UserRecord, target ∈ users → (users.map UserRecord.id).Nodup →
      (users.filter (fun u => u.id != target.id)).length + 1 = users.length := by
  intro users
  induction users with
  | nil => intro h; exact absurd h (List.not_mem_nil target)
  | cons a l ih =>
    intro hmem hnodup
    rw [List.map_cons, List.nodup_cons] at hnodup
    rcases List.mem_cons.mp hmem with heq | hl
    · subst heq
      rw [List.filter_cons]
      simp only [bne_self_eq_false, Bool.false_eq_true, if_false]
      rw [filter_ne_id_of_not_mem _ _ hnodup.1]
      simp
    · have hne : (a.id != target.id) = true := by
        simp only [bne_iff_ne, ne_eq]
        intro hid
        exact hnodup.1 (hid ▸ List.mem_map_of_mem UserRecord.id hl)
      rw [List.filter_cons]
      simp only [hne, if_true, List.length_cons]
      rw [← ih hl hnodup.2]

/-! ### Claims -/

/-- C1: membership in the derived filtered list is exactly: the record is in
the source list, its username or email case-insensitively contains the
search text, the role filter is empty or equals the record role, and the
status filter is empty or is "active". -/
theorem mem_filterUsers_iff (users : List UserRecord) (st ro sf : String) (r : UserRecord) :
    r ∈ filterUsers users st ro sf ↔
      r ∈ users ∧
      (strContains (strToLower r.username) (strToLower st) = true ∨
        strContains (strToLower r.email) (strToLower st) = true) ∧
      (ro = "" ∨ r.role = ro) ∧
      (sf = "" ∨ sf = "active") := by
  simp [filterUsers, List.mem_filter, userMatches, matchesSearch, matchesRole,
    matchesStatus, Bool.and_eq_true, Bool.or_eq_true, beq_iff_eq, and_assoc]

/-- C2 counterexample: the status filter is not a no-op — with one user and
otherwise empty criteria, status "blocked" empties the result while status
"" keeps it. -/
theorem status_filter_changes_result :
    filterUsers [⟨"1", "alice", "alice@example.com", "user", "2024-01-01"⟩] "" "" "blocked" ≠
      filterUsers [⟨"1", "alice", "alice@example.com", "user", "2024-01-01"⟩] "" "" "" := by
  decide

/-- C2 amended: the status filter is a no-op only between "" and "active";
any other value (such as "blocked") makes the filtered list empty. -/
theorem status_filter_semantics (users : List UserRecord) (st ro sf : String) :
    filterUsers users st ro sf =
      if sf = "" ∨ sf = "active" then filterUsers users st ro "" else [] := by
  by_cases h : sf = "" ∨ sf = "active"
  · rw [if_pos h]
    rcases h with h | h
    · rw [h]
    · subst h
      unfold filterUsers
      apply List.filter_congr
      intro u _
      simp [userMatches, matchesStatus]
  · rw [if_neg h]
    push_neg at h
    unfold filterUsers
    apply List.filter_eq_nil_iff.mpr
    intro u _
    simp [userMatches, matchesStatus, h.1, h.2]

/-- C3: filtering is idempotent — filtering an already filtered list with
the same criteria changes nothing. -/
theorem filterUsers_idempotent (users : List UserRecord) (st ro sf : String) :
    filterUsers (filterUsers users st ro sf) st ro sf = filterUsers users st ro sf := by
  unfold filterUsers
  rw [List.filter_filter]
  simp

/-- C4: when either external update fails, the save aborts — the local user
list is unchanged and the error banner carries the failing message. -/
theorem handleSaveChanges_error_aborts (sel : UserRecord) (form : EditDraft)
    (users : List UserRecord) (prevError : Option String) (m : Bool)
    (authRes dbRes : Except String Unit)
    (h : (∃ e, authRes = Except.error e) ∨ (∃ e, dbRes = Except.error e)) :
    (handleSaveChanges (some sel) form users prevError m authRes dbRes).users = users ∧
    ∃ e, (handleSaveChanges (some sel) form users prevError m authRes dbRes).error =
        some ("Ошибка при обновлении пользователя: " ++ e) ∧
      (authRes = Except.error e ∨ dbRes = Except.error e) := by
  cases authRes with
  | error e => exact ⟨rfl, e, rfl, Or.inl rfl⟩
  | ok _ =>
    cases dbRes with
    | error e => exact ⟨rfl, e, rfl, Or.inr rfl⟩
    | ok _ =>
      exfalso
      rcases h with ⟨e, he⟩ | ⟨e, he⟩ <;> exact Except.noConfusion he

/-- C4 witness: a concrete failing first update leaves a concrete one-user
list unchanged and surfaces the message. -/
theorem handleSaveChanges_error_aborts_witness :
    (handleSaveChanges (some ⟨"1", "a", "a@e", "user", "t"⟩) ⟨"b", "b@e", "admin"⟩
        [⟨"1", "a", "a@e", "user", "t"⟩] none true (Except.error "boom") (Except.ok ())).users =
      [⟨"1", "a", "a@e", "user", "t"⟩] ∧
    ∃ e, (handleSaveChanges (some ⟨"1", "a", "a@e", "user", "t"⟩) ⟨"b", "b@e", "admin"⟩
        [⟨"1", "a", "a@e", "user", "t"⟩] none true (Except.error "boom") (Except.ok ())).error =
        some ("Ошибка при обновлении пользователя: " ++ e) ∧
      ((Except.error "boom" : Except String Unit) = Except.error e ∨
        (Except.ok () : Except String Unit) = Except.error e) :=
  handleSaveChanges_error_aborts ⟨"1", "a", "a@e", "user", "t"⟩ ⟨"b", "b@e", "admin"⟩
    [⟨"1", "a", "a@e", "user", "t"⟩] none true (Except.error "boom") (Except.ok ())
    (Or.inl ⟨"boom", rfl⟩)

/-- C5: on a successful save the local list is patched pointwise — same
length and order; every record keeps its id and created_at; the records
whose id equals the selected id take the draft username/email/role; all
others are completely unchanged. -/
theorem handleSaveChanges_success_patch (sel : UserRecord) (form : EditDraft)
    (users : List UserRecord) (prevError : Option String) (m : Bool) :
    List.Forall₂
      (fun old new =>
        new.id = old.id ∧ new.created_at = old.created_at ∧
        (old.id = sel.id →
          new.username = form.username ∧ new.email = form.email ∧ new.role = form.role) ∧
        (old.id ≠ sel.id → new = old))
      users
      ((handleSaveChanges (some sel) form users prevError m
        (Except.ok ()) (Except.ok ())).users) := by
  show List.Forall₂ _ users
    (users.map (fun u => if u.id == sel.id then applyDraft u form else u))
  induction users with
  | nil => exact List.Forall₂.nil
  | cons a t ih =>
    rw [List.map_cons]
    refine List.Forall₂.cons ?_ ih
    by_cases hid : a.id = sel.id
    · simp [hid, applyDraft]
    · simp [hid, applyDraft]

/-- C6: a confirmed delete whose two external calls succeed removes exactly
one entry — the one with the target id — and keeps the remaining entries in
their original relative order. -/
theorem deleteUser_success_removes_one (target : UserRecord) (users : List UserRecord)
    (prevError : Option String)
    (hmem : target ∈ users) (hnodup : (users.map UserRecord.id).Nodup) :
    ((deleteUser true target users prevError (Except.ok ()) (Except.ok ())).1).Sublist users ∧
    ((deleteUser true target users prevError (Except.ok ()) (Except.ok ())).1).length + 1 =
      users.length ∧
    ∀ u ∈ users,
      (u ∈ (deleteUser true target users prevError (Except.ok ()) (Except.ok ())).1 ↔
        u.id ≠ target.id) := by
  show (users.filter (fun u => u.id != target.id)).Sublist users ∧ _ ∧ _
  refine ⟨List.filter_sublist users, length_filter_ne_id target users hmem hnodup, ?_⟩
  intro u hu
  show u ∈ users.filter (fun u => u.id != target.id) ↔ u.id ≠ target.id
  simp [List.mem_filter, hu]

/-- C6 witness: deleting the first of two users with distinct ids. -/
theorem deleteUser_success_removes_one_witness :
    ((deleteUser true ⟨"1", "a", "a@e", "user", "t"⟩
        [⟨"1", "a", "a@e", "user", "t"⟩, ⟨"2", "b", "b@e", "admin", "t"⟩] none
        (Except.ok ()) (Except.ok ())).1).Sublist
      [⟨"1", "a", "a@e", "user", "t"⟩, ⟨"2", "b", "b@e", "admin", "t"⟩] ∧
    ((deleteUser true ⟨"1", "a", "a@e", "user", "t"⟩
        [⟨"1", "a", "a@e", "user", "t"⟩, ⟨"2", "b", "b@e", "admin", "t"⟩] none
        (Except.ok ()) (Except.ok ())).1).length + 1 =
      ([⟨"1", "a", "a@e", "user", "t"⟩, ⟨"2", "b", "b@e", "admin", "t"⟩] :
        List UserRecord).length ∧
    ∀ u ∈ ([⟨"1", "a", "a@e", "user", "t"⟩, ⟨"2", "b", "b@e", "admin", "t"⟩] :
        List UserRecord),
      (u ∈ (deleteUser true ⟨"1", "a", "a@e", "user", "t"⟩
          [⟨"1", "a", "a@e", "user", "t"⟩, ⟨"2", "b", "b@e", "admin", "t"⟩] none
          (Except.ok ()) (Except.ok ())).1 ↔
        u.id ≠ (⟨"1", "a", "a@e", "user", "t"⟩ : UserRecord).id) :=
  deleteUser_success_removes_one ⟨"1", "a", "a@e", "user", "t"⟩
    [⟨"1", "a", "a@e", "user", "t"⟩, ⟨"2", "b", "b@e", "admin", "t"⟩] none
    (by decide) (by decide)

/-- C7: when the initial fetch fails, the page ends with loading off, the
exact error banner set, and both the source and the derived list empty —
never a partial list. -/
theorem fetchUsers_failure_state (e : String) :
    (fetchUsersStep initialPageState (Except.error e)).users = [] ∧
    (fetchUsersStep initialPageState (Except.error e)).filteredUsers = [] ∧
    (fetchUsersStep initialPageState (Except.error e)).isLoading = false ∧
    (fetchUsersStep initialPageState (Except.error e)).error =
      some "Не удалось загрузить пользователей. Проверьте подключение к интернету." := by
  refine ⟨?_, ?_, ?_, ?_⟩ <;> simp [fetchUsersStep, initialPageState]

/-- C8: whenever the session user is absent or has a non-admin role, the
component returns the redirect and renders no content. -/
theorem renderAdminUsersPage_redirects (sessionUser : Option UserRecord) (s : PageState)
    (h : ∀ u, sessionUser = some u → u.role ≠ "admin") :
    renderAdminUsersPage sessionUser s = RenderResult.redirect "/" := by
  cases sessionUser with
  | none => rfl
  | some u =>
    have hu := h u rfl
    simp [renderAdminUsersPage, hu]

/-- C8 witness: a session user with role "user" is redirected. -/
theorem renderAdminUsersPage_redirects_witness :
    renderAdminUsersPage (some ⟨"2", "bob", "b@e", "user", "t"⟩) initialPageState =
      RenderResult.redirect "/" :=
  renderAdminUsersPage_redirects (some ⟨"2", "bob", "b@e", "user", "t"⟩) initialPageState
    (by intro u hu; injection hu with hu2; subst hu2; decide)

/-- C9: empty criteria are an identity — with empty search text and empty
role and status filters every record matches and filtering returns the
source list. -/
theorem filterUsers_empty_criteria (users : List UserRecord) :
    filterUsers users "" "" "" = users := by
  apply List.filter_eq_self.mpr
  intro u _
  simp [userMatches, matchesSearch, matchesRole, matchesStatus,
    strContains_lower_empty]

/-- C10: for every criteria the filtered list is a sublist of the source:
its records occur in the source, none is duplicated or invented, and the
relative order is preserved. -/
theorem filterUsers_sublist (users : List UserRecord) (st ro sf : String) :
    (filterUsers users st ro sf).Sublist users :=
  List.filter_sublist users
